import Mathlib

/-!
# Verification of the batch HTTPS domain prober (`src/main.go`)

Shallow embedding of the Go program: a CSV domain loader
(`ReadDomainsFromCSV`), a worker step that turns one dequeued `Domain` and
one environment-determined probe outcome into one `Result`, and the
aggregator loop of `main` that folds results into counters, a status-code
histogram and per-category statistics.

Modelling conventions:
* The input file is `Option (List (List String))`: `none` is a file that
  cannot be opened; `some rows` is the sequence of raw records the Go
  `encoding/csv` reader would lex (quoting/escaping abstracted away; the
  Go reader never yields an empty record since blank lines are skipped).
  The Go reader's `FieldsPerRecord` check is modelled explicitly: the
  header's field count becomes the expected count and any record of a
  different length is a read error, exactly as `reader.Read` reports
  `ErrFieldCount` which `ReadDomainsFromCSV` turns into an error return.
* Go maps are association lists with first-occurrence lookup/replace;
  a missing key reads as the zero value, as in the Go code which relies
  on `categoryStats[category]` returning the zero struct.
* `Duration` fields (wall-clock time) are not modelled.
* The re-slice `domains = domains[:200]` follows the Go language
  specification: it panics exactly when `200 > cap(domains)`; the
  capacity of the slice grown by one-at-a-time `append` is modelled by
  `appendCap` (the gc runtime doubles capacity in this size range), and
  the backing array between `len` and `cap` holds zero-valued `Domain`s.
* Network nondeterminism is a `ProbeOutcome` per job supplied by the
  environment, and the arrival order of results at the aggregator is an
  arbitrary permutation of the emitted results.
-/

/-- A domain entry from the CSV: `Domain` struct of `main.go`. -/
structure Domain where
  name : String
  category : String
deriving Repr, DecidableEq

/-- The result of checking a domain: `Result` struct of `main.go`
(the `Duration` field, real wall-clock time, is not modelled).
`statusCode = 0` is Go's zero value for the `StatusCode` field, and
`error = none` is a nil `Error` field. -/
structure Result where
  domain : Domain
  statusCode : Nat
  error : Option String
deriving Repr, DecidableEq

/-- The zero value of the `Domain` struct in Go. -/
def zeroDomain : Domain := ⟨"", ""⟩

/-- `record[0]`/`record[1]` projection used at lines 110–113 of
`main.go`; only applied to records of length ≥ 2, where the defaults
never fire. -/
def recordToDomain (r : List String) : Domain :=
  ⟨r.headD "", (r.drop 1).headD ""⟩

/-- The read loop of `ReadDomainsFromCSV` (lines 100–115): reads records
until EOF, errors on any record whose field count differs from the
expected count fixed by the header (Go csv `ErrFieldCount`, wrapped as
"error reading record"), keeps records with ≥ 2 fields and silently
skips shorter ones. -/
def readRecords (expected : Nat) : List (List String) → Except String (List Domain)
  | [] => .ok []
  | r :: rs =>
    if r.length ≠ expected then
      .error "error reading record"
    else
      match readRecords expected rs with
      | .error m => .error m
      | .ok ds => .ok (if 2 ≤ r.length then recordToDomain r :: ds else ds)

/-- `ReadDomainsFromCSV` (lines 83–118): fails if the file cannot be
opened, fails if the header cannot be read (EOF on an empty file),
otherwise discards the header, fixes the expected field count to the
header's field count (Go csv default `FieldsPerRecord = 0`), and runs
the read loop. -/
def ReadDomainsFromCSV (file : Option (List (List String))) : Except String (List Domain) :=
  match file with
  | none => .error "error opening file"
  | some [] => .error "error reading header"
  | some (header :: rows) => readRecords header.length rows

/-- What the network/runtime environment does for one probe: request
construction fails (`http.NewRequestWithContext` error), the transport
fails (`client.Do` error: timeout, DNS, TLS, refused), or a response
arrives with a status code.  Because the client's `CheckRedirect`
returns `http.ErrUseLastResponse` (lines 36–38), a redirect response is
terminal: a 3xx arrives as `response s`, never followed. -/
inductive ProbeOutcome where
  | buildErr (msg : String)
  | netErr (msg : String)
  | response (status : Nat)
deriving Repr, DecidableEq

/-- The body of the worker loop for one dequeued domain (lines 43–79):
on request-construction failure or network failure the error is stored
in the result; on success the status code is stored; in every branch
exactly one `Result` is emitted. -/
def workerStep (d : Domain) (o : ProbeOutcome) : Result :=
  match o with
  | .buildErr m => { domain := d, statusCode := 0, error := some m }
  | .netErr m => { domain := d, statusCode := 0, error := some m }
  | .response s => { domain := d, statusCode := s, error := none }

/-- An HTTP response delivered by `net/http` carries a status code of at
least 100 (the wire format's three-digit status line). -/
def validOutcome (o : ProbeOutcome) : Prop :=
  ∀ s, o = ProbeOutcome.response s → 100 ≤ s

instance (o : ProbeOutcome) : Decidable (validOutcome o) :=
  match o with
  | .buildErr m => .isTrue (fun s h => by cases h)
  | .netErr m => .isTrue (fun s h => by cases h)
  | .response t =>
    if h : 100 ≤ t then
      .isTrue (fun s hs => by cases hs; exact h)
    else
      .isFalse (fun hall => h (hall t rfl))

/-- The stream of results emitted by the worker pool, one per enqueued
domain, each produced by `workerStep` from the environment's outcome for
that job. -/
def emittedResults (ds : List Domain) (os : List ProbeOutcome) : List Result :=
  (ds.zip os).map fun p => workerStep p.1 p.2

/-- Capacity of a Go slice built from nil by `n` one-at-a-time
`append`s, as the gc runtime grows it in this size range: when the
length has reached the capacity, the next append doubles the capacity
(from 0 it becomes 1).  For `Domain` (two string headers) these doubled
byte sizes are exact malloc size classes, so no further rounding
occurs. -/
def appendCap : Nat → Nat
  | 0 => 0
  | n + 1 =>
    let c := appendCap n
    if n < c then c else if c = 0 then 1 else 2 * c

/-- The re-slice `domains = domains[:n]` of line 131 with `n = 200`, per
the Go specification: the expression panics (modelled as `none`) exactly
when `n` exceeds the slice's capacity; otherwise it succeeds and the
elements between the old length and `n` are the zero `Domain` values
left in the append-grown backing array. -/
def sliceUpTo (ds : List Domain) (n : Nat) : Option (List Domain) :=
  if appendCap ds.length < n then none
  else some ((ds ++ List.replicate (n - ds.length) zeroDomain).take n)

/-- Per-category statistics struct of `main.go` (lines 162–166). -/
structure CatStat where
  total : Nat
  success : Nat
  failed : Nat
deriving Repr, DecidableEq

/-- Go map read: value at the first occurrence of the key, or the zero
value if absent (`categoryStats[category]` at line 174). -/
def mapGet [DecidableEq κ] (z : δ) : List (κ × δ) → κ → δ
  | [], _ => z
  | (k', v) :: rest, k => if k' = k then v else mapGet z rest k

/-- Go map write: replace the value at the first occurrence of the key,
or append a fresh entry (`categoryStats[category] = stats` at
line 203). -/
def mapSet [DecidableEq κ] : List (κ × δ) → κ → δ → List (κ × δ)
  | [], k, v => [(k, v)]
  | (k', v') :: rest, k, v =>
    if k' = k then (k, v) :: rest else (k', v') :: mapSet rest k v

/-- Aggregator state of `main` (lines 159–166): the running counters,
the status-code histogram and the per-category statistics map. -/
structure AggState where
  successful : Nat
  failed : Nat
  statusCodes : List (Nat × Nat)
  categoryStats : List (String × CatStat)
deriving Repr, DecidableEq

/-- The aggregator's initial state (all counters zero, both maps
empty). -/
def aggInit : AggState := ⟨0, 0, [], []⟩

/-- The per-result icon chosen by the aggregator's print statements
(lines 180, 190–193): error results get the error icon; successes get
the warning icon when the status code is ≥ 400 and the ok icon
otherwise. -/
def resultIcon (r : Result) : String :=
  match r.error with
  | some _ => "❌"
  | none => if 400 ≤ r.statusCode then "⚠️" else "✅"

/-- One iteration of the aggregator loop (lines 172–204): increment the
category's `Total`; on an error result increment `failed` (global and
per-category); otherwise increment `successful` (global and
per-category) and the status-code histogram bucket. -/
def processResult (st : AggState) (r : Result) : AggState :=
  let c := r.domain.category
  let s := mapGet ⟨0, 0, 0⟩ st.categoryStats c
  match r.error with
  | some _ =>
    { st with
        failed := st.failed + 1
        categoryStats := mapSet st.categoryStats c ⟨s.total + 1, s.success, s.failed + 1⟩ }
  | none =>
    { st with
        successful := st.successful + 1
        statusCodes :=
          mapSet st.statusCodes r.statusCode (mapGet 0 st.statusCodes r.statusCode + 1)
        categoryStats := mapSet st.categoryStats c ⟨s.total + 1, s.success + 1, s.failed⟩ }

/-- The whole result-draining loop: fold `processResult` over the
results in their arrival order. -/
def processResults (st : AggState) : List Result → AggState
  | [] => st
  | r :: rs => processResults (processResult st r) rs

/-- How a run of `main` can end: a fatal load error (`log.Fatalf`,
line 128), a runtime panic at the `domains[:200]` re-slice (line 131),
or completion with a final aggregator state and the printed
"Total domains checked" count (`len(domains)` after the re-slice). -/
inductive RunOutcome where
  | loadError (msg : String)
  | panicked
  | completed (final : AggState) (totalChecked : Nat)
deriving Repr, DecidableEq

/-- `main` (lines 120–226): load the CSV (fatal error on failure),
re-slice to the first 200 entries (panic per `sliceUpTo`), then drain
the result stream into the aggregator state.  `arrival` is the order in
which the emitted results reach the aggregator; theorems constrain it to
a permutation of `emittedResults` of the processed domains. -/
def runMain (file : Option (List (List String))) (arrival : List Result) : RunOutcome :=
  match ReadDomainsFromCSV file with
  | .error m => .loadError m
  | .ok ds =>
    match sliceUpTo ds 200 with
    | none => .panicked
    | some ds' => .completed (processResults aggInit arrival) ds'.length

/-- Sum of a projection of the values of an association-list map. -/
def sumBy (f : δ → Nat) : List (κ × δ) → Nat
  | [] => 0
  | p :: rest => f p.2 + sumBy f rest

/-- Every per-category entry is internally balanced:
`Total = Success + Failed`. -/
def catBalanced (m : List (String × CatStat)) : Prop :=
  ∀ k, (mapGet ⟨0, 0, 0⟩ m k).total =
    (mapGet ⟨0, 0, 0⟩ m k).success + (mapGet ⟨0, 0, 0⟩ m k).failed

section MapLemmas

variable {κ δ : Type} [DecidableEq κ]

lemma mapGet_mapSet_same (z : δ) (m : List (κ × δ)) (k : κ) (v : δ) :
    mapGet z (mapSet m k v) k = v := by
  induction m with
  | nil => simp [mapSet, mapGet]
  | cons p rest ih =>
    obtain ⟨k0, v0⟩ := p
    by_cases h : k0 = k
    · subst h; simp [mapSet, mapGet]
    · simp [mapSet, mapGet, h, ih]

lemma mapGet_mapSet_ne (z : δ) (m : List (κ × δ)) (k k' : κ) (v : δ) (h : k ≠ k') :
    mapGet z (mapSet m k v) k' = mapGet z m k' := by
  induction m with
  | nil => simp [mapSet, mapGet, h]
  | cons p rest ih =>
    obtain ⟨k0, v0⟩ := p
    by_cases hk : k0 = k
    · subst hk; simp [mapSet, mapGet, h]
    · simp [mapSet, mapGet, hk, ih]

lemma sumBy_mapSet (f : δ → Nat) (z : δ) (hz : f z = 0) (m : List (κ × δ)) (k : κ) (v : δ) :
    sumBy f (mapSet m k v) + f (mapGet z m k) = sumBy f m + f v := by
  induction m with
  | nil => simp [mapSet, mapGet, sumBy, hz]
  | cons p rest ih =>
    obtain ⟨k0, v0⟩ := p
    by_cases h : k0 = k
    · subst h; simp [mapSet, mapGet, sumBy]; omega
    · simp only [mapSet, mapGet, if_neg h, sumBy]
      omega

end MapLemmas

lemma processResult_counts (st : AggState) (r : Result) :
    (processResult st r).successful + (processResult st r).failed =
      st.successful + st.failed + 1 := by
  cases h : r.error <;> simp [processResult, h] <;> omega

lemma processResult_successful (st : AggState) (r : Result) :
    (processResult st r).successful =
      st.successful + (if r.error = none then 1 else 0) := by
  cases h : r.error <;> simp [processResult, h]

lemma processResult_failed (st : AggState) (r : Result) :
    (processResult st r).failed =
      st.failed + (if r.error = none then 0 else 1) := by
  cases h : r.error <;> simp [processResult, h]

lemma processResult_catTotal (st : AggState) (r : Result) :
    sumBy CatStat.total (processResult st r).categoryStats =
      sumBy CatStat.total st.categoryStats + 1 := by
  cases h : r.error with
  | none =>
    simp only [processResult, h]
    have hs := sumBy_mapSet CatStat.total (⟨0, 0, 0⟩ : CatStat) rfl
      st.categoryStats r.domain.category
      ⟨(mapGet ⟨0, 0, 0⟩ st.categoryStats r.domain.category).total + 1,
        (mapGet ⟨0, 0, 0⟩ st.categoryStats r.domain.category).success + 1,
        (mapGet ⟨0, 0, 0⟩ st.categoryStats r.domain.category).failed⟩
    dsimp only at hs
    omega
  | some e =>
    simp only [processResult, h]
    have hs := sumBy_mapSet CatStat.total (⟨0, 0, 0⟩ : CatStat) rfl
      st.categoryStats r.domain.category
      ⟨(mapGet ⟨0, 0, 0⟩ st.categoryStats r.domain.category).total + 1,
        (mapGet ⟨0, 0, 0⟩ st.categoryStats r.domain.category).success,
        (mapGet ⟨0, 0, 0⟩ st.categoryStats r.domain.category).failed + 1⟩
    dsimp only at hs
    omega

lemma processResult_catSuccess (st : AggState) (r : Result) :
    sumBy CatStat.success (processResult st r).categoryStats =
      sumBy CatStat.success st.categoryStats + (if r.error = none then 1 else 0) := by
  cases h : r.error with
  | none =>
    simp only [processResult, h, if_pos]
    have hs := sumBy_mapSet CatStat.success (⟨0, 0, 0⟩ : CatStat) rfl
      st.categoryStats r.domain.category
      ⟨(mapGet ⟨0, 0, 0⟩ st.categoryStats r.domain.category).total + 1,
        (mapGet ⟨0, 0, 0⟩ st.categoryStats r.domain.category).success + 1,
        (mapGet ⟨0, 0, 0⟩ st.categoryStats r.domain.category).failed⟩
    dsimp only at hs
    omega
  | some e =>
    simp only [processResult, h, reduceCtorEq, if_neg, not_false_iff]
    have hs := sumBy_mapSet CatStat.success (⟨0, 0, 0⟩ : CatStat) rfl
      st.categoryStats r.domain.category
      ⟨(mapGet ⟨0, 0, 0⟩ st.categoryStats r.domain.category).total + 1,
        (mapGet ⟨0, 0, 0⟩ st.categoryStats r.domain.category).success,
        (mapGet ⟨0, 0, 0⟩ st.categoryStats r.domain.category).failed + 1⟩
    dsimp only at hs
    omega

lemma processResult_catFailed (st : AggState) (r : Result) :
    sumBy CatStat.failed (processResult st r).categoryStats =
      sumBy CatStat.failed st.categoryStats + (if r.error = none then 0 else 1) := by
  cases h : r.error with
  | none =>
    simp only [processResult, h, if_pos]
    have hs := sumBy_mapSet CatStat.failed (⟨0, 0, 0⟩ : CatStat) rfl
      st.categoryStats r.domain.category
      ⟨(mapGet ⟨0, 0, 0⟩ st.categoryStats r.domain.category).total + 1,
        (mapGet ⟨0, 0, 0⟩ st.categoryStats r.domain.category).success + 1,
        (mapGet ⟨0, 0, 0⟩ st.categoryStats r.domain.category).failed⟩
    dsimp only at hs
    omega
  | some e =>
    simp only [processResult, h, reduceCtorEq, if_neg, not_false_iff]
    have hs := sumBy_mapSet CatStat.failed (⟨0, 0, 0⟩ : CatStat) rfl
      st.categoryStats r.domain.category
      ⟨(mapGet ⟨0, 0, 0⟩ st.categoryStats r.domain.category).total + 1,
        (mapGet ⟨0, 0, 0⟩ st.categoryStats r.domain.category).success,
        (mapGet ⟨0, 0, 0⟩ st.categoryStats r.domain.category).failed + 1⟩
    dsimp only at hs
    omega

lemma processResults_counts (rs : List Result) : ∀ st : AggState,
    (processResults st rs).successful + (processResults st rs).failed =
      st.successful + st.failed + rs.length := by
  induction rs with
  | nil => intro st; simp [processResults]
  | cons r rs ih =>
    intro st
    have h1 := processResult_counts st r
    have h2 := ih (processResult st r)
    simp only [processResults, List.length_cons]
    omega

lemma processResults_catTotal (rs : List Result) : ∀ st : AggState,
    sumBy CatStat.total (processResults st rs).categoryStats =
      sumBy CatStat.total st.categoryStats + rs.length := by
  induction rs with
  | nil => intro st; simp [processResults]
  | cons r rs ih =>
    intro st
    have h1 := processResult_catTotal st r
    have h2 := ih (processResult st r)
    simp only [processResults, List.length_cons]
    omega

lemma processResults_catSuccess (rs : List Result) : ∀ st : AggState,
    sumBy CatStat.success st.categoryStats = st.successful →
    sumBy CatStat.success (processResults st rs).categoryStats =
      (processResults st rs).successful := by
  induction rs with
  | nil => intro st h; simpa [processResults] using h
  | cons r rs ih =>
    intro st h
    have h1 := processResult_catSuccess st r
    have h2 := processResult_successful st r
    simp only [processResults]
    exact ih (processResult st r) (by omega)

lemma processResults_catFailed (rs : List Result) : ∀ st : AggState,
    sumBy CatStat.failed st.categoryStats = st.failed →
    sumBy CatStat.failed (processResults st rs).categoryStats =
      (processResults st rs).failed := by
  induction rs with
  | nil => intro st h; simpa [processResults] using h
  | cons r rs ih =>
    intro st h
    have h1 := processResult_catFailed st r
    have h2 := processResult_failed st r
    simp only [processResults]
    exact ih (processResult st r) (by omega)

lemma processResult_catBalanced (st : AggState) (r : Result)
    (h : catBalanced st.categoryStats) :
    catBalanced (processResult st r).categoryStats := by
  intro k
  have hk0 := h r.domain.category
  have hk := h k
  cases herr : r.error <;> simp only [processResult, herr] <;>
  · by_cases hc : r.domain.category = k
    · subst hc
      rw [mapGet_mapSet_same]
      simp
      omega
    · rw [mapGet_mapSet_ne _ _ _ _ _ hc]
      exact hk

lemma processResults_catBalanced (rs : List Result) : ∀ st : AggState,
    catBalanced st.categoryStats →
    catBalanced (processResults st rs).categoryStats := by
  induction rs with
  | nil => intro st h; exact h
  | cons r rs ih =>
    intro st h
    exact ih (processResult st r) (processResult_catBalanced st r h)

lemma le_appendCap (n : Nat) : n ≤ appendCap n := by
  induction n with
  | zero => exact Nat.le_refl 0
  | succ n ih =>
    have h : appendCap (n + 1) =
        if n < appendCap n then appendCap n
        else if appendCap n = 0 then 1 else 2 * appendCap n := rfl
    rw [h]
    split
    · omega
    · split <;> omega

lemma appendCap_le_succ (n : Nat) : appendCap n ≤ appendCap (n + 1) := by
  have h : appendCap (n + 1) =
      if n < appendCap n then appendCap n
      else if appendCap n = 0 then 1 else 2 * appendCap n := rfl
  rw [h]
  split
  · exact Nat.le_refl _
  · split <;> omega

lemma appendCap_mono : Monotone appendCap :=
  monotone_nat_of_le_succ appendCap_le_succ

set_option maxRecDepth 2000 in
lemma appendCap_128 : appendCap 128 = 128 := rfl

set_option maxRecDepth 2000 in
lemma appendCap_129 : appendCap 129 = 256 := rfl

lemma appendCap_lt_200_iff (n : Nat) : appendCap n < 200 ↔ n ≤ 128 := by
  constructor
  · intro h
    by_contra hn
    have h129 : 129 ≤ n := by omega
    have := appendCap_mono h129
    rw [appendCap_129] at this
    omega
  · intro h
    have := appendCap_mono h
    rw [appendCap_128] at this
    omega

lemma sliceUpTo_none_iff (ds : List Domain) (n : Nat) :
    sliceUpTo ds n = none ↔ appendCap ds.length < n := by
  unfold sliceUpTo
  split <;> simp_all

lemma sliceUpTo_length (ds : List Domain) (n : Nat) (ds' : List Domain)
    (h : sliceUpTo ds n = some ds') : ds'.length = n := by
  unfold sliceUpTo at h
  split at h
  · exact absurd h (by simp)
  · have hds' : ds' = (ds ++ List.replicate (n - ds.length) zeroDomain).take n := by
      injection h with h'
      exact h'.symm
    subst hds'
    simp [List.length_take, List.length_append]
    omega

lemma sliceUpTo_isSome_of_le (ds : List Domain) (n : Nat) (h : n ≤ ds.length) :
    sliceUpTo ds n = some (ds.take n) := by
  have hcap : ¬ appendCap ds.length < n := by
    have := le_appendCap ds.length
    omega
  unfold sliceUpTo
  rw [if_neg hcap]
  have : n - ds.length = 0 := by omega
  rw [this]
  simp

lemma emittedResults_length (ds : List Domain) (os : List ProbeOutcome)
    (h : ds.length ≤ os.length) : (emittedResults ds os).length = ds.length := by
  simp [emittedResults]
  omega

lemma runMain_loadError (file : Option (List (List String))) (m : String)
    (arrival : List Result) (h : ReadDomainsFromCSV file = .error m) :
    runMain file arrival = .loadError m := by
  simp [runMain, h]

lemma runMain_panicked (file : Option (List (List String))) (ds : List Domain)
    (arrival : List Result) (h1 : ReadDomainsFromCSV file = .ok ds)
    (h2 : sliceUpTo ds 200 = none) :
    runMain file arrival = .panicked := by
  simp [runMain, h1, h2]

lemma runMain_completed (file : Option (List (List String))) (ds ds' : List Domain)
    (arrival : List Result) (h1 : ReadDomainsFromCSV file = .ok ds)
    (h2 : sliceUpTo ds 200 = some ds') :
    runMain file arrival = .completed (processResults aggInit arrival) ds'.length := by
  simp [runMain, h1, h2]

lemma readRecords_consistent (expected : Nat) (rows : List (List String))
    (hcons : ∀ r ∈ rows, r.length = expected) :
    readRecords expected rows =
      .ok ((rows.filter fun r => decide (2 ≤ r.length)).map recordToDomain) := by
  induction rows with
  | nil => rfl
  | cons r rs ih =>
    have hr : r.length = expected := hcons r (List.mem_cons_self r rs)
    have ih' := ih fun q hq => hcons q (List.mem_cons_of_mem r hq)
    simp only [readRecords, hr, ne_eq, not_true_eq_false, if_false, ih', List.filter_cons]
    by_cases h2 : 2 ≤ expected
    · simp [h2]
    · simp [h2]

/-- Claim C2: for every valid input file — a header row followed by H data
rows, each with at least 2 columns and each with the column count the CSV
reader accepts (equal to the header's, its own well-formedness rule) —
`ReadDomainsFromCSV` returns exactly H `Domain` records, in file order,
with the header row excluded, taking column 0 as the name and column 1 as
the category. -/
theorem loader_valid_rows (header : List String) (rows : List (List String))
    (hcons : ∀ r ∈ rows, r.length = header.length)
    (h2 : ∀ r ∈ rows, 2 ≤ r.length) :
    ReadDomainsFromCSV (some (header :: rows)) = .ok (rows.map recordToDomain) ∧
    (rows.map recordToDomain).length = rows.length := by
  constructor
  · have h := readRecords_consistent header.length rows hcons
    have hfilter : rows.filter (fun r => decide (2 ≤ r.length)) = rows := by
      rw [List.filter_eq_self]
      intro r hr
      simpa using h2 r hr
    rw [hfilter] at h
    simpa [ReadDomainsFromCSV] using h
  · simp

/-- Witness for C2 on a concrete two-row file. -/
theorem loader_valid_rows_witness :
    ReadDomainsFromCSV (some [["domain", "category"], ["a.com", "tech"], ["b.org", "news"]]) =
      .ok ([["a.com", "tech"], ["b.org", "news"]].map recordToDomain) ∧
    ([["a.com", "tech"], ["b.org", "news"]].map recordToDomain).length =
      [["a.com", "tech"], ["b.org", "news"]].length :=
  loader_valid_rows ["domain", "category"] [["a.com", "tech"], ["b.org", "news"]]
    (by decide) (by decide)

/-- Claim C3: on any input file whose data rows all pass the CSV reader's
column-count rule, every data row with fewer than 2 columns is excluded
from the returned `Domain` sequence and causes no error by itself: the
loader returns `.ok` of exactly the rows with at least 2 columns.  (A
short row can still trip the reader's independent consistency rule when
its count differs from the header's, which the spec lists as a separate
fatal case.) -/
theorem loader_short_rows_skipped (header : List String) (rows : List (List String))
    (hcons : ∀ r ∈ rows, r.length = header.length) :
    ReadDomainsFromCSV (some (header :: rows)) =
      .ok ((rows.filter fun r => decide (2 ≤ r.length)).map recordToDomain) := by
  simpa [ReadDomainsFromCSV] using readRecords_consistent header.length rows hcons

/-- Witness for C3: a file whose two data rows both have one column is
loaded without error as the empty domain list. -/
theorem loader_short_rows_skipped_witness :
    ReadDomainsFromCSV (some [["h"], ["x"], ["y"]]) =
      .ok (([["x"], ["y"]].filter fun r => decide (2 ≤ r.length)).map recordToDomain) ∧
    ReadDomainsFromCSV (some [["h"], ["x"], ["y"]]) = .ok [] :=
  ⟨loader_short_rows_skipped ["h"] [["x"], ["y"]] (by decide), rfl⟩

/-- Claim C4 (code bug): on a header-only input file the loader does
return zero domains, but `main` then panics at the `domains[:200]`
re-slice — a nil slice has capacity 0 < 200 — so the program never
reaches the aggregator or prints the Total=0 summary the spec's scenario
requires. -/
theorem header_only_panics :
    ReadDomainsFromCSV (some [["domain", "category"]]) = .ok [] ∧
    runMain (some [["domain", "category"]]) [] = .panicked :=
  ⟨rfl, rfl⟩

/-- Claim C6: every per-request failure (request construction or
network/transport) is converted inside the worker into a `Result`
carrying the error and never escapes, while a load-time failure makes the
run terminate with that failure for every possible probe/arrival
behaviour — that is, before any network activity matters. -/
theorem error_containment :
    (∀ d m, workerStep d (ProbeOutcome.buildErr m) =
        { domain := d, statusCode := 0, error := some m } ∧
      workerStep d (ProbeOutcome.netErr m) =
        { domain := d, statusCode := 0, error := some m }) ∧
    (∀ file m arrival, ReadDomainsFromCSV file = .error m →
      runMain file arrival = RunOutcome.loadError m) :=
  ⟨fun _ _ => ⟨rfl, rfl⟩, fun file m arrival h => runMain_loadError file m arrival h⟩

/-- Witness for C6: a concrete network failure becomes a `Result`, and an
unopenable file ends the run as a load error. -/
theorem error_containment_witness :
    workerStep ⟨"a.com", "tech"⟩ (ProbeOutcome.netErr "timeout") =
      { domain := ⟨"a.com", "tech"⟩, statusCode := 0, error := some "timeout" } ∧
    runMain none [] = RunOutcome.loadError "error opening file" :=
  ⟨(error_containment.1 ⟨"a.com", "tech"⟩ "timeout").2,
    error_containment.2 none "error opening file" [] rfl⟩

/-- Claim C7: a probe answered with HTTP 301 is recorded as a success
(no error) with status code 301 — the client's redirect policy makes the
3xx response terminal — the aggregator counts it as successful, buckets
it in the histogram at 301, and prints the ok icon since 301 < 400. -/
theorem redirect_success_ok_icon (d : Domain) (st : AggState) :
    workerStep d (ProbeOutcome.response 301) =
      { domain := d, statusCode := 301, error := none } ∧
    resultIcon (workerStep d (ProbeOutcome.response 301)) = "✅" ∧
    (processResult st (workerStep d (ProbeOutcome.response 301))).successful =
      st.successful + 1 ∧
    (processResult st (workerStep d (ProbeOutcome.response 301))).failed = st.failed ∧
    mapGet 0 (processResult st (workerStep d (ProbeOutcome.response 301))).statusCodes 301 =
      mapGet 0 st.statusCodes 301 + 1 := by
  refine ⟨rfl, rfl, rfl, rfl, ?_⟩
  show mapGet 0 (mapSet st.statusCodes 301 (mapGet 0 st.statusCodes 301 + 1)) 301 =
    mapGet 0 st.statusCodes 301 + 1
  exact mapGet_mapSet_same 0 st.statusCodes 301 _

/-- Claim C8: the worker emits exactly one `Result` per dequeued domain
(the emitted stream has one entry per job when the environment supplies
an outcome for each), and in each emitted `Result` exactly one of the
status code and the error is meaningfully populated. -/
theorem one_result_per_job (ds : List Domain) (os : List ProbeOutcome)
    (d : Domain) (o : ProbeOutcome)
    (hlen : ds.length ≤ os.length) (hv : validOutcome o) :
    (emittedResults ds os).length = ds.length ∧
    (((workerStep d o).error = none ∧ 100 ≤ (workerStep d o).statusCode) ∨
      ((workerStep d o).error ≠ none ∧ (workerStep d o).statusCode = 0)) := by
  refine ⟨emittedResults_length ds os hlen, ?_⟩
  cases o with
  | buildErr m => exact Or.inr ⟨by simp [workerStep], rfl⟩
  | netErr m => exact Or.inr ⟨by simp [workerStep], rfl⟩
  | response s => exact Or.inl ⟨rfl, hv s rfl⟩

/-- Witness for C8 on a one-job pool and a 200 response. -/
theorem one_result_per_job_witness :
    (emittedResults [⟨"a.com", "tech"⟩]
        [ProbeOutcome.response 200, ProbeOutcome.netErr "x"]).length =
      ([⟨"a.com", "tech"⟩] : List Domain).length ∧
    (((workerStep ⟨"a.com", "tech"⟩ (ProbeOutcome.response 200)).error = none ∧
        100 ≤ (workerStep ⟨"a.com", "tech"⟩ (ProbeOutcome.response 200)).statusCode) ∨
      ((workerStep ⟨"a.com", "tech"⟩ (ProbeOutcome.response 200)).error ≠ none ∧
        (workerStep ⟨"a.com", "tech"⟩ (ProbeOutcome.response 200)).statusCode = 0)) :=
  one_result_per_job [⟨"a.com", "tech"⟩] [ProbeOutcome.response 200, ProbeOutcome.netErr "x"]
    ⟨"a.com", "tech"⟩ (ProbeOutcome.response 200) (by decide) (by decide)

/-- Claim C10: after the aggregator has processed any sequence of
results starting from the initial state, every category's statistics
entry satisfies `Total = Success + Failed`. -/
theorem per_category_total_split (arrival : List Result) (k : String) :
    (mapGet ⟨0, 0, 0⟩ (processResults aggInit arrival).categoryStats k).total =
      (mapGet ⟨0, 0, 0⟩ (processResults aggInit arrival).categoryStats k).success +
        (mapGet ⟨0, 0, 0⟩ (processResults aggInit arrival).categoryStats k).failed :=
  processResults_catBalanced arrival aggInit (fun _ => rfl) k

/-- Claim C1 (amended): for every run that completes, the final
successful count plus the final failed count equals the total number of
domains processed, and that total is the length of the truncated
200-element prefix actually enqueued — which equals the number of domains
loaded from the file only when exactly 200 are loaded. -/
theorem processed_count_amended (file : Option (List (List String)))
    (ds ds' : List Domain) (os : List ProbeOutcome) (arrival : List Result)
    (h1 : ReadDomainsFromCSV file = .ok ds)
    (h2 : sliceUpTo ds 200 = some ds')
    (h3 : arrival.Perm (emittedResults ds' os))
    (h4 : ds'.length ≤ os.length) :
    runMain file arrival = .completed (processResults aggInit arrival) ds'.length ∧
    (processResults aggInit arrival).successful +
      (processResults aggInit arrival).failed = ds'.length ∧
    ds'.length = 200 := by
  have hlen : arrival.length = ds'.length := by
    rw [h3.length_eq, emittedResults_length ds' os h4]
  have hc := processResults_counts arrival aggInit
  have h0 : aggInit.successful = 0 := rfl
  have h0' : aggInit.failed = 0 := rfl
  exact ⟨runMain_completed file ds ds' arrival h1 h2, by omega,
    sliceUpTo_length ds 200 ds' h2⟩

set_option maxRecDepth 10000 in
/-- Witness for the amended C1 on a 200-row file whose probes all answer
HTTP 200. -/
theorem processed_count_amended_witness :
    runMain (some (["domain", "category"] :: List.replicate 200 ["a", "tech"]))
        (emittedResults (List.replicate 200 (⟨"a", "tech"⟩ : Domain))
          (List.replicate 200 (ProbeOutcome.response 200))) =
      .completed
        (processResults aggInit
          (emittedResults (List.replicate 200 (⟨"a", "tech"⟩ : Domain))
            (List.replicate 200 (ProbeOutcome.response 200))))
        (List.replicate 200 (⟨"a", "tech"⟩ : Domain)).length ∧
    (processResults aggInit
        (emittedResults (List.replicate 200 (⟨"a", "tech"⟩ : Domain))
          (List.replicate 200 (ProbeOutcome.response 200)))).successful +
      (processResults aggInit
        (emittedResults (List.replicate 200 (⟨"a", "tech"⟩ : Domain))
          (List.replicate 200 (ProbeOutcome.response 200)))).failed =
      (List.replicate 200 (⟨"a", "tech"⟩ : Domain)).length ∧
    (List.replicate 200 (⟨"a", "tech"⟩ : Domain)).length = 200 :=
  processed_count_amended
    (some (["domain", "category"] :: List.replicate 200 ["a", "tech"]))
    (List.replicate 200 ⟨"a", "tech"⟩)
    (List.replicate 200 ⟨"a", "tech"⟩)
    (List.replicate 200 (ProbeOutcome.response 200))
    (emittedResults (List.replicate 200 (⟨"a", "tech"⟩ : Domain))
      (List.replicate 200 (ProbeOutcome.response 200)))
    rfl rfl (List.Perm.refl _) (Nat.le_refl _)

set_option maxRecDepth 10000 in
/-- Counterexample to C1 as stated: a file with 201 data rows loads 201
domains, but the run that completes processes only the 200-element
truncated prefix, so `successful + failed = 200 ≠ 201`. -/
theorem processed_count_cex :
    ReadDomainsFromCSV (some (["domain", "category"] :: List.replicate 201 ["a", "tech"])) =
      .ok (List.replicate 201 (⟨"a", "tech"⟩ : Domain)) ∧
    (List.replicate 201 (⟨"a", "tech"⟩ : Domain)).length = 201 ∧
    sliceUpTo (List.replicate 201 (⟨"a", "tech"⟩ : Domain)) 200 =
      some (List.replicate 200 (⟨"a", "tech"⟩ : Domain)) ∧
    runMain (some (["domain", "category"] :: List.replicate 201 ["a", "tech"]))
        (emittedResults (List.replicate 200 (⟨"a", "tech"⟩ : Domain))
          (List.replicate 200 (ProbeOutcome.response 200))) =
      .completed
        (processResults aggInit
          (emittedResults (List.replicate 200 (⟨"a", "tech"⟩ : Domain))
            (List.replicate 200 (ProbeOutcome.response 200))))
        200 ∧
    (processResults aggInit
        (emittedResults (List.replicate 200 (⟨"a", "tech"⟩ : Domain))
          (List.replicate 200 (ProbeOutcome.response 200)))).successful +
      (processResults aggInit
        (emittedResults (List.replicate 200 (⟨"a", "tech"⟩ : Domain))
          (List.replicate 200 (ProbeOutcome.response 200)))).failed = 200 ∧
    (200 : Nat) ≠ 201 := by
  refine ⟨rfl, by decide, rfl, rfl, ?_, by decide⟩
  have hc := processResults_counts
    (emittedResults (List.replicate 200 (⟨"a", "tech"⟩ : Domain))
      (List.replicate 200 (ProbeOutcome.response 200))) aggInit
  have h0 : aggInit.successful = 0 := rfl
  have h0' : aggInit.failed = 0 := rfl
  have hlen : (emittedResults (List.replicate 200 (⟨"a", "tech"⟩ : Domain))
      (List.replicate 200 (ProbeOutcome.response 200))).length = 200 := by
    rw [emittedResults_length] <;> simp
  omega

/-- Claim C5: for every run that completes, the per-category `Total`
fields sum to the overall total processed, the `Success` fields sum to
the overall successful count, and the `Failed` fields sum to the overall
failed count. -/
theorem category_sums_match (file : Option (List (List String)))
    (ds ds' : List Domain) (os : List ProbeOutcome) (arrival : List Result)
    (h1 : ReadDomainsFromCSV file = .ok ds)
    (h2 : sliceUpTo ds 200 = some ds')
    (h3 : arrival.Perm (emittedResults ds' os))
    (h4 : ds'.length ≤ os.length) :
    runMain file arrival = .completed (processResults aggInit arrival) ds'.length ∧
    sumBy CatStat.total (processResults aggInit arrival).categoryStats = ds'.length ∧
    sumBy CatStat.success (processResults aggInit arrival).categoryStats =
      (processResults aggInit arrival).successful ∧
    sumBy CatStat.failed (processResults aggInit arrival).categoryStats =
      (processResults aggInit arrival).failed := by
  have hlen : arrival.length = ds'.length := by
    rw [h3.length_eq, emittedResults_length ds' os h4]
  have ht := processResults_catTotal arrival aggInit
  have ht0 : sumBy CatStat.total aggInit.categoryStats = 0 := rfl
  refine ⟨runMain_completed file ds ds' arrival h1 h2, by rw [ht, ht0]; omega,
    processResults_catSuccess arrival aggInit rfl,
    processResults_catFailed arrival aggInit rfl⟩

set_option maxRecDepth 10000 in
/-- Witness for C5 on a 250-row file truncated to 200 jobs that all fail
at the transport layer. -/
theorem category_sums_match_witness :
    runMain (some (["domain", "category"] :: List.replicate 250 ["b", "news"]))
        (emittedResults (List.replicate 200 (⟨"b", "news"⟩ : Domain))
          (List.replicate 200 (ProbeOutcome.netErr "connection refused"))) =
      .completed
        (processResults aggInit
          (emittedResults (List.replicate 200 (⟨"b", "news"⟩ : Domain))
            (List.replicate 200 (ProbeOutcome.netErr "connection refused"))))
        (List.replicate 200 (⟨"b", "news"⟩ : Domain)).length ∧
    sumBy CatStat.total
        (processResults aggInit
          (emittedResults (List.replicate 200 (⟨"b", "news"⟩ : Domain))
            (List.replicate 200 (ProbeOutcome.netErr "connection refused")))).categoryStats =
      (List.replicate 200 (⟨"b", "news"⟩ : Domain)).length ∧
    sumBy CatStat.success
        (processResults aggInit
          (emittedResults (List.replicate 200 (⟨"b", "news"⟩ : Domain))
            (List.replicate 200 (ProbeOutcome.netErr "connection refused")))).categoryStats =
      (processResults aggInit
        (emittedResults (List.replicate 200 (⟨"b", "news"⟩ : Domain))
          (List.replicate 200 (ProbeOutcome.netErr "connection refused")))).successful ∧
    sumBy CatStat.failed
        (processResults aggInit
          (emittedResults (List.replicate 200 (⟨"b", "news"⟩ : Domain))
            (List.replicate 200 (ProbeOutcome.netErr "connection refused")))).categoryStats =
      (processResults aggInit
        (emittedResults (List.replicate 200 (⟨"b", "news"⟩ : Domain))
          (List.replicate 200 (ProbeOutcome.netErr "connection refused")))).failed :=
  category_sums_match
    (some (["domain", "category"] :: List.replicate 250 ["b", "news"]))
    (List.replicate 250 ⟨"b", "news"⟩)
    (List.replicate 200 ⟨"b", "news"⟩)
    (List.replicate 200 (ProbeOutcome.netErr "connection refused"))
    (emittedResults (List.replicate 200 (⟨"b", "news"⟩ : Domain))
      (List.replicate 200 (ProbeOutcome.netErr "connection refused")))
    rfl rfl (List.Perm.refl _) (Nat.le_refl _)

/-- Claim C9 (amended): after a successful load, `main` panics at the
`domains[:200]` re-slice exactly when 200 exceeds the capacity of the
loaded slice — under the runtime's doubling growth, exactly when at most
128 domains were loaded; with 129–199 domains the re-slice succeeds
(padding with zero-value domains), and with at least 200 it never
panics. -/
theorem truncation_panic_amended (file : Option (List (List String)))
    (ds : List Domain) (arrival : List Result)
    (h : ReadDomainsFromCSV file = .ok ds) :
    (runMain file arrival = .panicked ↔ ds.length ≤ 128) ∧
    (200 ≤ ds.length → runMain file arrival ≠ .panicked) := by
  have hiff : runMain file arrival = .panicked ↔ ds.length ≤ 128 := by
    constructor
    · intro hp
      by_contra hn
      have hcap : ¬ appendCap ds.length < 200 := by
        rw [appendCap_lt_200_iff]; omega
      obtain ⟨ds', hds'⟩ : ∃ ds', sliceUpTo ds 200 = some ds' := by
        cases hslice : sliceUpTo ds 200 with
        | none => rw [sliceUpTo_none_iff] at hslice; exact absurd hslice hcap
        | some ds' => exact ⟨ds', rfl⟩
      rw [runMain_completed file ds ds' arrival h hds'] at hp
      exact RunOutcome.noConfusion hp
    · intro hle
      exact runMain_panicked file ds arrival h
        ((sliceUpTo_none_iff ds 200).mpr ((appendCap_lt_200_iff ds.length).mpr hle))
  exact ⟨hiff, fun h200 hp => by have := hiff.mp hp; omega⟩

/-- Witness for the amended C9: a header-only file loads zero domains and
the run panics. -/
theorem truncation_panic_amended_witness :
    runMain (some [["name", "cat"]]) [] = .panicked :=
  (truncation_panic_amended (some [["name", "cat"]]) [] [] rfl).1.mpr (by decide)

set_option maxRecDepth 10000 in
/-- Counterexample to C9 as stated: a file with 150 data rows (fewer
than 200) loads a slice of length 150 whose backing capacity is 256, so
the re-slice succeeds and the run does not panic — it completes,
processing 200 jobs of which 50 are zero-value padding domains. -/
theorem truncation_panic_cex :
    ReadDomainsFromCSV (some (["domain", "category"] :: List.replicate 150 ["x", "y"])) =
      .ok (List.replicate 150 (⟨"x", "y"⟩ : Domain)) ∧
    (List.replicate 150 (⟨"x", "y"⟩ : Domain)).length = 150 ∧
    appendCap 150 = 256 ∧
    sliceUpTo (List.replicate 150 (⟨"x", "y"⟩ : Domain)) 200 =
      some (List.replicate 150 (⟨"x", "y"⟩ : Domain) ++ List.replicate 50 zeroDomain) ∧
    runMain (some (["domain", "category"] :: List.replicate 150 ["x", "y"]))
        (emittedResults
          (List.replicate 150 (⟨"x", "y"⟩ : Domain) ++ List.replicate 50 zeroDomain)
          (List.replicate 200 (ProbeOutcome.netErr "unreachable"))) ≠
      RunOutcome.panicked := by
  refine ⟨rfl, by decide, rfl, rfl, ?_⟩
  intro hp
  rw [runMain_completed (some (["domain", "category"] :: List.replicate 150 ["x", "y"]))
    (List.replicate 150 ⟨"x", "y"⟩)
    (List.replicate 150 (⟨"x", "y"⟩ : Domain) ++ List.replicate 50 zeroDomain)
    _ rfl rfl] at hp
  exact RunOutcome.noConfusion hp

